import Mathlib

/-!
Shallow embedding of the Ostrom Advanced Home Assistant integration
(`custom_components/ostrom_advanced`): the next-update-time scheduler
(`utils.calculate_next_update_time` and the coordinators' private copy
`OstromPriceCoordinator._calculate_next_update_time`), the cheapest-block
helpers (`utils.get_cheapest_3h_block` / `get_cheapest_4h_block`), the two
coordinators' `_async_update_data` bodies, and `OstromCostSensor.native_value`.

Timestamps are modelled as natural numbers counting microseconds since an
arbitrary local midnight: Python datetimes carry microsecond precision, and
every field access the code performs (`minute`, `hour`, `date()`, `replace`)
is a function of that count.  The code converts the API's UTC timestamps to
local time before reading any field; a timezone conversion preserves the
instant, so each timestamp here is the local-time instant.  Python floats
are modelled as rationals, and fallible `datetime.replace` calls as `Option`
(`none` models a raised `ValueError`).
-/

namespace Ostrom

def usecPerSec : Nat := 1000000

def usecPerMin : Nat := 60 * usecPerSec

def usecPerHour : Nat := 60 * usecPerMin

def usecPerDay : Nat := 24 * usecPerHour

/-- `t.minute`. -/
def minuteOf (t : Nat) : Nat := t / usecPerMin % 60

/-- `t.hour`. -/
def hourOf (t : Nat) : Nat := t / usecPerHour % 24

/-- Start of the hour containing `t`; equals
`t.replace(minute=0, second=0, microsecond=0)`. -/
def hourFloor (t : Nat) : Nat := t - t % usecPerHour

/-- Local midnight of the day containing `t`; equals
`dt_util.start_of_local_day()` for `now = t`.  Two instants lie on the same
local calendar day (`.date()` equality) iff their `dayFloor`s agree. -/
def dayFloor (t : Nat) : Nat := t - t % usecPerDay

/-- `t.replace(minute=m, second=s, microsecond=0)`.  `none` models the
`ValueError` Python raises when a field argument is out of range. -/
def replaceMinSec (t m s : Nat) : Option Nat :=
  if m ≤ 59 ∧ s ≤ 59 then some (hourFloor t + m * usecPerMin + s * usecPerSec)
  else none

/-- `t.replace(hour=h, minute=m, second=s, microsecond=0)`. -/
def replaceHMS (t h m s : Nat) : Option Nat :=
  if h ≤ 23 ∧ m ≤ 59 ∧ s ≤ 59 then
    some (dayFloor t + h * usecPerHour + m * usecPerMin + s * usecPerSec)
  else none

/-- The `try:` body of `utils.calculate_next_update_time` (utils.py lines
24-63), after the offset has been clamped.  `none` models a `ValueError`
escaping to the `except` clause.  `now = dt_util.now()` is passed
explicitly. -/
def calcNextUpdateTry (intervalMinutes offsetSeconds now : Nat) : Option Nat :=
  let minutesPastHour := minuteOf now
  let intervalCount := minutesPastHour / intervalMinutes
  let intervalStartMinute := intervalCount * intervalMinutes
  (replaceMinSec now intervalStartMinute offsetSeconds).bind fun intervalStartTime =>
    (if now < intervalStartTime then
        some intervalStartTime
      else
        let nextMinute := intervalStartMinute + intervalMinutes
        if 60 ≤ nextMinute then
          let nextHour := hourOf now + 1
          if 24 ≤ nextHour then
            (replaceHMS now 0 0 offsetSeconds).map (fun t => t + usecPerDay)
          else
            replaceHMS now nextHour 0 offsetSeconds
        else
          replaceMinSec now nextMinute offsetSeconds).bind fun nextTime =>
      some (if nextTime ≤ now then nextTime + intervalMinutes * usecPerMin else nextTime)

/-- `utils.calculate_next_update_time` (utils.py lines 11-68): clamps the
offset to `[0, 59]`, runs the `try:` body, and on a `ValueError` falls back
to `now + timedelta(minutes=interval_minutes, seconds=offset_seconds)` with
the clamped offset.  `interval_minutes ≥ 1` is assumed throughout (the
config flow only allows 5-120); Python would raise `ZeroDivisionError`
on 0, which the `except (ValueError, OverflowError)` clause does not catch. -/
def calculate_next_update_time (intervalMinutes offsetSeconds now : Nat) : Nat :=
  let offsetClamped := min (max 0 offsetSeconds) 59
  (calcNextUpdateTry intervalMinutes offsetClamped now).getD
    (now + intervalMinutes * usecPerMin + offsetClamped * usecPerSec)

/-- The `try:` body of `OstromPriceCoordinator._calculate_next_update_time`
(coordinator.py lines 77-111; `OstromConsumptionCoordinator` holds a
character-for-character copy at lines 335-369).  It differs from the utils
version in two ways: the offset is not clamped first, and the hour rollover
is `now.replace(hour=now.hour + 1, ...)` with no day-rollover case, which
raises `ValueError` (modelled by `none`) when `now.hour = 23`. -/
def coordCalcNextUpdateTry (intervalMinutes offsetSeconds now : Nat) : Option Nat :=
  let minutesPastHour := minuteOf now
  let intervalCount := minutesPastHour / intervalMinutes
  let intervalStartMinute := intervalCount * intervalMinutes
  (replaceMinSec now intervalStartMinute offsetSeconds).bind fun intervalStartTime =>
    (if now < intervalStartTime then
        some intervalStartTime
      else
        let nextMinute := intervalStartMinute + intervalMinutes
        if 60 ≤ nextMinute then
          replaceHMS now (hourOf now + 1) 0 offsetSeconds
        else
          replaceMinSec now nextMinute offsetSeconds).bind fun nextTime =>
      some (if nextTime ≤ now then nextTime + intervalMinutes * usecPerMin else nextTime)

/-- `OstromPriceCoordinator._calculate_next_update_time` (coordinator.py
lines 58-119): no clamping; on `ValueError` falls back to
`now + timedelta(minutes=interval_minutes, seconds=offset_seconds)` with the
offset as given. -/
def coord_calculate_next_update_time (intervalMinutes offsetSeconds now : Nat) : Nat :=
  (coordCalcNextUpdateTry intervalMinutes offsetSeconds now).getD
    (now + intervalMinutes * usecPerMin + offsetSeconds * usecPerSec)

/-- One price slot as built by `OstromPriceCoordinator._async_update_data`
(coordinator.py lines 218-226).  Every key is set there, so the fields are
total; prices are rationals (Python floats). -/
structure Slot where
  start : Nat
  end_ : Nat
  net_price : ℚ
  taxes_price : ℚ
  total_price : ℚ
  gross_kwh_price : ℚ
  gross_tax_and_levies : ℚ
deriving Repr, DecidableEq

/-- `utils.get_cheapest_3h_block` / `get_cheapest_4h_block` share one loop
shape (utils.py lines 87-94 and 113-120, identical up to the window size
`n`): slide a window of `n` consecutive slots, keep the first window whose
mean `total_price` is strictly below the best mean seen so far.  The
accumulator `none` models `min_avg = float("inf")`: the first window always
replaces it (rational prices are never infinite).  The recorded start is
`block[0].get("start")`. -/
def cheapestBlockLoop (n : Nat) (slots : List Slot) : Option (ℚ × Option Nat) :=
  (List.range (slots.length - (n - 1))).foldl
    (fun acc i =>
      let block := (slots.drop i).take n
      let avgPrice := (block.map (fun s => s.total_price)).sum / (n : ℚ)
      match acc with
      | none => some (avgPrice, (block.head?).map (fun s => s.start))
      | some (minAvg, bestStart) =>
          if avgPrice < minAvg then some (avgPrice, (block.head?).map (fun s => s.start))
          else some (minAvg, bestStart))
    none

/-- `utils.get_cheapest_3h_block` (utils.py lines 71-94). -/
def get_cheapest_3h_block (slots : List Slot) : Option Nat :=
  if slots.length < 3 then none
  else
    match cheapestBlockLoop 3 slots with
    | none => none
    | some (_, bestStart) => bestStart

/-- `utils.get_cheapest_4h_block` (utils.py lines 97-120). -/
def get_cheapest_4h_block (slots : List Slot) : Option Nat :=
  if slots.length < 4 then none
  else
    match cheapestBlockLoop 4 slots with
    | none => none
    | some (_, bestStart) => bestStart

/-- One raw record of the spot-price API response as
`OstromPriceCoordinator._async_update_data` reads it.  `date` is the
record's timestamp converted to a local instant; `none` models a `date`
string `datetime.fromisoformat` cannot parse (the record is then skipped
with a warning).  The numeric fields are `Option` because the code reads
each with `entry.get(key, 0)`. -/
structure RawPrice where
  date : Option Nat
  net_price : Option ℚ
  taxes_price : Option ℚ
  total_price : Option ℚ
  grossKwhPrice : Option ℚ
  grossKwhTaxAndLevies : Option ℚ
deriving Repr, DecidableEq

/-- The slot object built at coordinator.py lines 218-226 from a parsed
entry with local start instant `slotStart`. -/
def mkSlot (e : RawPrice) (slotStart : Nat) : Slot :=
  { start := slotStart
    end_ := slotStart + usecPerHour
    net_price := e.net_price.getD 0
    taxes_price := e.taxes_price.getD 0
    total_price := e.total_price.getD 0
    gross_kwh_price := e.grossKwhPrice.getD 0 / 100
    gross_tax_and_levies := e.grossKwhTaxAndLevies.getD 0 / 100 }

/-- The processing loop of `OstromPriceCoordinator._async_update_data`
(coordinator.py lines 201-236): accumulate `(today_slots, tomorrow_slots,
current_slot)`.  Buckets are filled by appending in input order and the
current-slot assignment overwrites, so the last matching record wins. -/
def priceProcess (now : Nat) (raw : List RawPrice) :
    List Slot × List Slot × Option Slot :=
  let todayStart := dayFloor now
  let tomorrowStart := todayStart + usecPerDay
  raw.foldl
    (fun acc e =>
      match e.date with
      | none => acc
      | some slotStart =>
          let slot := mkSlot e slotStart
          let acc1 :=
            if dayFloor slotStart = dayFloor todayStart then
              (acc.1 ++ [slot], acc.2.1, acc.2.2)
            else if dayFloor slotStart = dayFloor tomorrowStart then
              (acc.1, acc.2.1 ++ [slot], acc.2.2)
            else acc
          if slotStart ≤ now ∧ now < slotStart + usecPerHour then
            (acc1.1, acc1.2.1, some slot)
          else acc1)
    ([], [], none)

/-- A value stored in one of the coordinators' result dictionaries. -/
inductive DictVal where
  | slots : List Slot → DictVal
  | oslot : Option Slot → DictVal
  | time : Nat → DictVal
deriving Repr, DecidableEq

/-- `d.get(k)` on the modelled dictionary: `none` when the key is absent. -/
def dictLookup (d : List (String × DictVal)) (k : String) : Option DictVal :=
  (d.find? (fun p => p.1 == k)).map (fun p => p.2)

/-- `d.get(k, [])` for a slot-list value. -/
def dictGetSlots (d : List (String × DictVal)) (k : String) : List Slot :=
  match dictLookup d k with
  | some (DictVal.slots l) => l
  | _ => []

/-- Sorting key used at coordinator.py lines 239-240: `key=lambda x: x["start"]`.
Python's `list.sort` is stable; `List.mergeSort` with this comparison is the
same stable sort. -/
def slotLE (a b : Slot) : Bool := decide (a.start ≤ b.start)

/-- The result dictionary a successful run of
`OstromPriceCoordinator._async_update_data` returns (coordinator.py lines
248-253), with each bucket sorted ascending by `start`. -/
def priceUpdateResult (now : Nat) (raw : List RawPrice) :
    List (String × DictVal) :=
  let p := priceProcess now raw
  [("today_slots", DictVal.slots (p.1.mergeSort slotLE)),
   ("tomorrow_slots", DictVal.slots (p.2.1.mergeSort slotLE)),
   ("current_slot", DictVal.oslot p.2.2),
   ("last_update", DictVal.time now)]

/-- The half-open window of instants `[start_utc, end_utc)` the price
refresh requests from `async_get_spot_prices` (coordinator.py lines
178-186).  `astimezone(UTC).replace(tzinfo=None)` only changes the
representation of the bound, not the instant, so the window is stated in
local instants: `[today_start, today_start + 2 days)`. -/
def priceRequestWindow (now : Nat) : Nat × Nat :=
  (dayFloor now, dayFloor now + 2 * usecPerDay)

/-- One raw record of the consumption API response as
`OstromConsumptionCoordinator._async_update_data` reads it. -/
structure RawConsumption where
  date : Option Nat
  kWh : Option ℚ
deriving Repr, DecidableEq

/-- One consumption entry as built at coordinator.py lines 480-484. -/
structure ConsumptionEntry where
  start : Nat
  end_ : Nat
  kwh : ℚ
deriving Repr, DecidableEq

def consumptionEntryLE (a b : ConsumptionEntry) : Bool := decide (a.start ≤ b.start)

/-- The result of a successful `OstromConsumptionCoordinator._async_update_data`
run (coordinator.py lines 502-506).  The dictionary's keys (`"yesterday"`,
`"today"`, `"last_update"`) are always present, so it is modelled as a
record. -/
structure ConsumptionResult where
  yesterday : List ConsumptionEntry
  today : List ConsumptionEntry
  last_update : Nat
deriving Repr, DecidableEq

/-- The processing loop plus sorting of
`OstromConsumptionCoordinator._async_update_data` (coordinator.py lines
454-506). -/
def consumptionUpdateResult (now : Nat) (raw : List RawConsumption) :
    ConsumptionResult :=
  let todayStart := dayFloor now
  let yesterdayStart := todayStart - usecPerDay
  let p := raw.foldl
    (fun (acc : List ConsumptionEntry × List ConsumptionEntry) e =>
      match e.date with
      | none => acc
      | some slotStart =>
          let entry : ConsumptionEntry :=
            { start := slotStart
              end_ := slotStart + usecPerHour
              kwh := e.kWh.getD 0 }
          if dayFloor slotStart = dayFloor yesterdayStart then
            (acc.1 ++ [entry], acc.2)
          else if dayFloor slotStart = dayFloor todayStart then
            (acc.1, acc.2 ++ [entry])
          else acc)
    ([], [])
  { yesterday := p.1.mergeSort consumptionEntryLE
    today := p.2.mergeSort consumptionEntryLE
    last_update := now }

/-- The window `[yesterday_start, yesterday_start + 2 days)` the consumption
refresh requests (coordinator.py lines 436-444), in local instants. -/
def consumptionRequestWindow (now : Nat) : Nat × Nat :=
  (dayFloor now - usecPerDay, dayFloor now + usecPerDay)

/-- How one coordinator fetch terminates: it either returns raw data (of
type `α`) or raises one of the exceptions the `except` clauses of
`_async_update_data` distinguish (`asyncio.CancelledError`,
`OstromAuthError`, `OstromApiError`, anything else). -/
inductive FetchOutcome (α : Type) where
  | success : α → FetchOutcome α
  | cancelled : FetchOutcome α
  | authError : FetchOutcome α
  | apiError : FetchOutcome α
  | unexpected : FetchOutcome α
deriving Repr, DecidableEq

/-- Externally visible actions of one `_async_update_data` run, in program
order: `scheduleNext` is the `self._schedule_next_update()` call,
`returnResult` the `return result` statement, `raiseCancelled` the
re-raised `asyncio.CancelledError`, and `raiseUpdateFailed` a raised
`UpdateFailed`. -/
inductive Event where
  | scheduleNext : Event
  | returnResult : Event
  | raiseCancelled : Event
  | raiseUpdateFailed : Event
deriving Repr, DecidableEq

/-- `Event`s that end the run (a `return` or a `raise`). -/
def Event.isExit : Event → Bool
  | Event.scheduleNext => false
  | _ => true

/-- `OstromPriceCoordinator._async_update_data` (coordinator.py lines
167-279) as an event trace paired with the value it returns: each branch
of the `try`/`except` emits its statements' events in program order.  The
success branch builds the result dictionary, then schedules the next
update, then returns it; every `except` branch schedules the next update,
then raises (returning no value, hence `none`). -/
def priceRefresh (now : Nat) (o : FetchOutcome (List RawPrice)) :
    List Event × Option (List (String × DictVal)) :=
  match o with
  | FetchOutcome.success raw =>
      ([Event.scheduleNext, Event.returnResult], some (priceUpdateResult now raw))
  | FetchOutcome.cancelled => ([Event.scheduleNext, Event.raiseCancelled], none)
  | FetchOutcome.authError => ([Event.scheduleNext, Event.raiseUpdateFailed], none)
  | FetchOutcome.apiError => ([Event.scheduleNext, Event.raiseUpdateFailed], none)
  | FetchOutcome.unexpected => ([Event.scheduleNext, Event.raiseUpdateFailed], none)

/-- `OstromConsumptionCoordinator._async_update_data` (coordinator.py lines
425-532) as an event trace paired with its returned value; its
`try`/`except` structure is identical to the price coordinator's. -/
def consumptionRefresh (now : Nat) (o : FetchOutcome (List RawConsumption)) :
    List Event × Option ConsumptionResult :=
  match o with
  | FetchOutcome.success raw =>
      ([Event.scheduleNext, Event.returnResult], some (consumptionUpdateResult now raw))
  | FetchOutcome.cancelled => ([Event.scheduleNext, Event.raiseCancelled], none)
  | FetchOutcome.authError => ([Event.scheduleNext, Event.raiseUpdateFailed], none)
  | FetchOutcome.apiError => ([Event.scheduleNext, Event.raiseUpdateFailed], none)
  | FetchOutcome.unexpected => ([Event.scheduleNext, Event.raiseUpdateFailed], none)

/-- Hour truncation used by `OstromCostSensor.native_value` (sensor.py
lines 897 and 907): `start.replace(minute=0, second=0, microsecond=0)`. -/
def hourTrunc (t : Nat) : Nat := hourFloor t

/-- The `price_by_datetime` dictionary of `OstromCostSensor.native_value`
(sensor.py lines 892-898) as a lookup function: the dict maps each
hour-truncated slot start to that slot's `total_price`, later insertions
overwriting earlier ones, so a lookup returns the last matching slot's
price. -/
def priceByDatetime (slots : List Slot) (h : Nat) : Option ℚ :=
  (slots.reverse.find? (fun s => hourTrunc s.start == h)).map
    (fun s => s.total_price)

/-- The average-price fallback of sensor.py lines 913-916. -/
def avgTotalPrice (slots : List Slot) : ℚ :=
  (slots.map (fun s => s.total_price)).sum / (slots.length : ℚ)

/-- The cost accumulation loop of sensor.py lines 901-922. -/
def costSum (entries : List ConsumptionEntry) (slots : List Slot) : ℚ :=
  entries.foldl
    (fun acc e =>
      match priceByDatetime slots (hourTrunc e.start) with
      | some p => acc + e.kwh * p
      | none => if slots.isEmpty then acc else acc + e.kwh * avgTotalPrice slots)
    0

/-- Banker's rounding to an integer, as Python's `round` performs on the
exact value: nearest integer, ties to the even one. -/
def roundHalfEven (q : ℚ) : ℤ :=
  if q - Rat.floor q < 1 / 2 then Rat.floor q
  else if (1 : ℚ) / 2 < q - Rat.floor q then Rat.floor q + 1
  else if Rat.floor q % 2 = 0 then Rat.floor q
  else Rat.floor q + 1

/-- `round(x, 2)` of sensor.py line 924. -/
def round2 (q : ℚ) : ℚ := (roundHalfEven (q * 100) : ℚ) / 100

/-- `OstromCostSensor.native_value` (sensor.py lines 869-924).  `priceData`
is the price coordinator's stored dictionary (`none` before any successful
refresh; an empty dictionary is also falsy in Python, hence the `isEmpty`
guard), `consData` the consumption coordinator's result.  For
`is_today = false` the price slots are `price_data.get("yesterday_slots", [])`. -/
def native_value (isToday : Bool) (priceData : Option (List (String × DictVal)))
    (consData : Option ConsumptionResult) : Option ℚ :=
  match priceData, consData with
  | some pd, some cd =>
      if pd.isEmpty then none
      else
        let entries := if isToday then cd.today else cd.yesterday
        let priceSlots := dictGetSlots pd (if isToday then "today_slots" else "yesterday_slots")
        if entries.isEmpty ∨ priceSlots.isEmpty then none
        else some (round2 (costSum entries priceSlots))
  | _, _ => none

/-! ### Concrete sample instants and inputs used by witnesses and
counterexamples.  Day 1000 of the model's epoch stands for an arbitrary
calendar day; `tDDdHHhMMmSSs` is the local instant day 1000 + DD days,
HH:MM:SS. -/

/-- Local 12:00:00 noon. -/
def tNoon : Nat := 1000 * usecPerDay + 12 * usecPerHour

/-- Local 10:07:30 (the docstring example instant). -/
def t100730 : Nat := 1000 * usecPerDay + 10 * usecPerHour + 7 * usecPerMin + 30 * usecPerSec

/-- Local 23:50:30, inside the last 15-minute interval of hour 23. -/
def t235030 : Nat := 1000 * usecPerDay + 23 * usecPerHour + 50 * usecPerMin + 30 * usecPerSec

/-- A raw price record for local 10:00 with `total_price` 0.30 EUR/kWh and
every other numeric key missing (read back as 0 by `.get(key, 0)`). -/
def rawTen : RawPrice :=
  { date := some (1000 * usecPerDay + 10 * usecPerHour)
    net_price := none
    taxes_price := none
    total_price := some (30 / 100)
    grossKwhPrice := none
    grossKwhTaxAndLevies := none }

/-! ### Claim theorems -/

/-- C3: every exit of a coordinator refresh re-arms the scheduler before
returning or raising: for both coordinators and every fetch outcome
(success, cancellation, auth error, API error, unexpected error), the
refresh trace ends in exactly one exit event (a return or a raise), and
`_schedule_next_update` is called strictly before it. -/
theorem refresh_reschedules_before_every_exit
    (now : Nat) (op : FetchOutcome (List RawPrice))
    (oc : FetchOutcome (List RawConsumption)) :
    (Event.scheduleNext ∈ (priceRefresh now op).1.dropLast ∧
      (∃ e, (priceRefresh now op).1.getLast? = some e ∧ e.isExit = true) ∧
      ((priceRefresh now op).1.filter Event.isExit).length = 1) ∧
    (Event.scheduleNext ∈ (consumptionRefresh now oc).1.dropLast ∧
      (∃ e, (consumptionRefresh now oc).1.getLast? = some e ∧ e.isExit = true) ∧
      ((consumptionRefresh now oc).1.filter Event.isExit).length = 1) := by
  constructor
  · cases op <;> exact ⟨List.Mem.head _, ⟨_, rfl, rfl⟩, rfl⟩
  · cases oc <;> exact ⟨List.Mem.head _, ⟨_, rfl, rfl⟩, rfl⟩

/-- C2: the dictionary a successful price refresh returns never holds the
key `"yesterday_slots"`, so the yesterday cost sensor (`is_today = False`)
always reads an empty price-slot list via `.get("yesterday_slots", [])` and
its `native_value` is `None`, whatever was fetched and whatever the
consumption coordinator holds. -/
theorem price_result_lacks_yesterday_slots
    (now : Nat) (raw : List RawPrice) (cd : Option ConsumptionResult) :
    dictLookup (priceUpdateResult now raw) "yesterday_slots" = none ∧
    dictGetSlots (priceUpdateResult now raw) "yesterday_slots" = [] ∧
    native_value false (some (priceUpdateResult now raw)) cd = none := by
  refine ⟨?_, ?_, ?_⟩
  · simp [priceUpdateResult, dictLookup]
  · simp [dictGetSlots, dictLookup, priceUpdateResult]
  · cases cd with
    | none => rfl
    | some cd =>
        simp [native_value, dictGetSlots, dictLookup, priceUpdateResult]

/-- C8: `native_value` returns `None` (rendered "unavailable"), not zero,
whenever a coordinator has no stored data, or the selected day's
consumption list is empty, or the matching price-slot list is empty. -/
theorem cost_sensor_unavailable_on_missing_or_empty
    (isToday : Bool) (pd : Option (List (String × DictVal)))
    (cd : Option ConsumptionResult)
    (h : pd = none ∨ cd = none ∨
      ∃ pd' cd', pd = some pd' ∧ cd = some cd' ∧
        ((if isToday then cd'.today else cd'.yesterday) = [] ∨
          dictGetSlots pd' (if isToday then "today_slots" else "yesterday_slots") = [])) :
    native_value isToday pd cd = none := by
  rcases h with rfl | rfl | ⟨pd', cd', rfl, rfl, h⟩
  · rfl
  · cases pd <;> rfl
  · rcases h with h | h <;> simp [native_value, h]

/-- A one-key dictionary with no slot lists, for the C8 witness. -/
def pdSample : List (String × DictVal) := [("last_update", DictVal.time 0)]

/-- An empty consumption result, for the C8 witness. -/
def cdEmpty : ConsumptionResult := { yesterday := [], today := [], last_update := 0 }

/-- C8 witness: with an empty today consumption list the today cost sensor
reports unavailable. -/
theorem cost_sensor_unavailable_witness :
    native_value true (some pdSample) (some cdEmpty) = none :=
  cost_sensor_unavailable_on_missing_or_empty true (some pdSample) (some cdEmpty)
    (Or.inr (Or.inr ⟨pdSample, cdEmpty, rfl, rfl, Or.inl rfl⟩))

/-- C1 (evaluating the code at the failing input): at local noon with any
response, the price refresh requests `[today_start, today_start + 2 days)`
- 48 hours starting at today's midnight, not the claimed 72-hour window
starting at yesterday's midnight - and its result dictionary carries no
`"yesterday_slots"` bucket, only today/tomorrow/current/last_update.  The
repository's own test (tests/components/ostrom_advanced/test_coordinator.py
lines 77 and 153) asserts the key is present, so the code contradicts its
own tests here. -/
theorem price_refresh_window_and_buckets_at_noon :
    priceRequestWindow tNoon = (1000 * usecPerDay, 1002 * usecPerDay) ∧
    (priceRequestWindow tNoon).1 ≠ dayFloor tNoon - usecPerDay ∧
    dictLookup (priceUpdateResult tNoon []) "yesterday_slots" = none ∧
    (priceUpdateResult tNoon []).map Prod.fst =
      ["today_slots", "tomorrow_slots", "current_slot", "last_update"] := by
  refine ⟨?_, ?_, ?_, ?_⟩
  · show (dayFloor tNoon, dayFloor tNoon + 2 * usecPerDay) = _
    simp [dayFloor, tNoon, usecPerDay, usecPerHour, usecPerMin, usecPerSec]
  · simp [priceRequestWindow, dayFloor, tNoon, usecPerDay, usecPerHour, usecPerMin, usecPerSec]
  · simp [priceUpdateResult, dictLookup]
  · simp [priceUpdateResult]

/-- C10 counterexample: a fetch whose response repeats the 10:00 record
produces a `today_slots` bucket holding two slots with the same normalized
hour-start, refuting "no two slots in a bucket share the same
hour-truncated start": the buckets are not deduplicated. -/
theorem price_bucket_shares_hour_start :
    ¬ (dictGetSlots (priceUpdateResult tNoon [rawTen, rawTen]) "today_slots").Pairwise
        (fun a b => hourTrunc a.start ≠ hourTrunc b.start) := by
  simp [priceUpdateResult, priceProcess, dictGetSlots, dictLookup, mkSlot, rawTen, tNoon,
    dayFloor, hourTrunc, hourFloor, usecPerDay, usecPerHour, usecPerMin, usecPerSec,
    slotLE, List.mergeSort]

/-- C10 (amended): within one price fetch each bucket is sorted ascending
by `start`, and is a permutation of the slots bucketed by the processing
loop - nothing is deduplicated, duplicate hour-starts are all kept. -/
theorem price_buckets_sorted_and_complete (now : Nat) (raw : List RawPrice) :
    (dictGetSlots (priceUpdateResult now raw) "today_slots").Pairwise
      (fun a b => a.start ≤ b.start) ∧
    (dictGetSlots (priceUpdateResult now raw) "tomorrow_slots").Pairwise
      (fun a b => a.start ≤ b.start) ∧
    (dictGetSlots (priceUpdateResult now raw) "today_slots").Perm
      (priceProcess now raw).1 ∧
    (dictGetSlots (priceUpdateResult now raw) "tomorrow_slots").Perm
      (priceProcess now raw).2.1 := by
  have htrans : ∀ a b c : Slot, slotLE a b = true → slotLE b c = true → slotLE a c = true := by
    intro a b c
    simp only [slotLE, decide_eq_true_eq]
    omega
  have htotal : ∀ a b : Slot, (slotLE a b || slotLE b a) = true := by
    intro a b
    simp only [slotLE, Bool.or_eq_true, decide_eq_true_eq]
    omega
  have h1 : dictGetSlots (priceUpdateResult now raw) "today_slots" =
      (priceProcess now raw).1.mergeSort slotLE := by
    simp [dictGetSlots, dictLookup, priceUpdateResult]
  have h2 : dictGetSlots (priceUpdateResult now raw) "tomorrow_slots" =
      (priceProcess now raw).2.1.mergeSort slotLE := by
    simp [dictGetSlots, dictLookup, priceUpdateResult]
  refine ⟨?_, ?_, ?_, ?_⟩
  · rw [h1]
    exact (List.sorted_mergeSort htrans htotal _).imp
      (fun hab => by simpa [slotLE] using hab)
  · rw [h2]
    exact (List.sorted_mergeSort htrans htotal _).imp
      (fun hab => by simpa [slotLE] using hab)
  · rw [h1]; exact List.mergeSort_perm _ _
  · rw [h2]; exact List.mergeSort_perm _ _

/-- C6 counterexample: the coordinators' `_calculate_next_update_time` does
not clamp the offset: at 10:07:30 with a 15-minute interval, offset 75
yields the exception fallback `now + 15 min + 75 s`, a different instant
than offset 59 yields, so 75 is not treated as 59. -/
theorem coord_does_not_clamp_offset :
    coord_calculate_next_update_time 15 75 t100730 =
      t100730 + 15 * usecPerMin + 75 * usecPerSec ∧
    coord_calculate_next_update_time 15 75 t100730 ≠
      coord_calculate_next_update_time 15 59 t100730 := by
  constructor <;> decide

/-- C6 (amended): `utils.calculate_next_update_time` clamps the offset to
`[0, 59]` before use - any offset at least 60 (such as 75) behaves exactly
like 59 - and raises no exception.  The coordinators'
`_calculate_next_update_time` does not clamp: with an out-of-range offset
every `replace` call raises `ValueError`, the `try` body yields no value,
and the caught-exception fallback `now + interval + offset` is returned
(with the unclamped offset), so no exception escapes there either. -/
theorem offset_clamping (i o now : Nat) (h : 60 ≤ o) :
    calculate_next_update_time i o now = calculate_next_update_time i 59 now ∧
    coordCalcNextUpdateTry i o now = none ∧
    coord_calculate_next_update_time i o now =
      now + i * usecPerMin + o * usecPerSec := by
  have hclamp : min (max 0 o) 59 = min (max 0 59) 59 := by
    rw [Nat.max_eq_right (Nat.zero_le o), Nat.max_eq_right (Nat.zero_le 59),
      Nat.min_eq_right (by omega : 59 ≤ o), Nat.min_self]
  have hcond : ¬(minuteOf now / i * i ≤ 59 ∧ o ≤ 59) := fun hc => absurd hc.2 (by omega)
  have hnone : coordCalcNextUpdateTry i o now = none := by
    simp only [coordCalcNextUpdateTry, replaceMinSec]
    rw [if_neg hcond]
    rfl
  refine ⟨?_, hnone, ?_⟩
  · unfold calculate_next_update_time
    rw [hclamp]
  · unfold coord_calculate_next_update_time
    rw [hnone]
    rfl

/-- C6 witness: the amended statement at interval 15, offset 75, 10:07:30. -/
theorem offset_clamping_witness :
    calculate_next_update_time 15 75 t100730 = calculate_next_update_time 15 59 t100730 ∧
    coordCalcNextUpdateTry 15 75 t100730 = none ∧
    coord_calculate_next_update_time 15 75 t100730 =
      t100730 + 15 * usecPerMin + 75 * usecPerSec :=
  offset_clamping 15 75 t100730 (by decide)

/-- C5 counterexample: inside the last interval of hour 23 (23:50:30,
15-minute interval, offset 15) the coordinators'
`_calculate_next_update_time` hits `replace(hour=24)`, whose `ValueError`
sends it to the fallback `now + 15 min + 15 s` = 00:05:45 - not the next
day at 00:00:15 the claim requires, and the invalid-date error does occur
(internally). -/
theorem coord_hour23_rollover_error :
    coordCalcNextUpdateTry 15 15 t235030 = none ∧
    coord_calculate_next_update_time 15 15 t235030 =
      t235030 + 15 * usecPerMin + 15 * usecPerSec ∧
    coord_calculate_next_update_time 15 15 t235030 ≠
      1001 * usecPerDay + 15 * usecPerSec := by
  refine ⟨by decide, by decide, by decide⟩

/-- If the `try:` body of `utils.calculate_next_update_time` produces a
value, that value is strictly after `now` and at most `interval_minutes`
minutes after `now`. -/
theorem calcNextUpdateTry_some_bounds (i o now t : Nat) (hi : 1 ≤ i) (ho : o ≤ 59)
    (h : calcNextUpdateTry i o now = some t) :
    now < t ∧ t ≤ now + i * usecPerMin := by
  simp only [calcNextUpdateTry, replaceMinSec, replaceHMS, minuteOf, hourOf, hourFloor,
    dayFloor, usecPerDay, usecPerHour, usecPerMin, usecPerSec] at h ⊢
  obtain ⟨P, hP⟩ : ∃ P, now / (60 * 1000000) % 60 / i * i = P := ⟨_, rfl⟩
  have hP1 : P ≤ now / (60 * 1000000) % 60 := hP ▸ Nat.div_mul_le_self _ _
  have hP2 : now / (60 * 1000000) % 60 < P + i := hP ▸ Nat.lt_div_mul_add hi
  rw [hP] at h
  rw [Option.bind_eq_some] at h
  obtain ⟨ist, hist, h⟩ := h
  rw [Option.bind_eq_some] at h
  obtain ⟨nt, hnt, hsome⟩ := h
  injection hsome with hsome
  split at hist
  case isFalse => exact absurd hist (by simp)
  case isTrue hcond =>
  injection hist with hist
  subst hist
  subst hsome
  have hnt2 : now < nt ∧ nt ≤ now + i * (60 * 1000000) := by
    split at hnt
    case isTrue hlt =>
      injection hnt with hnt
      subst hnt
      exact ⟨hlt, by omega⟩
    case isFalse hge =>
      split at hnt
      case isTrue h60 =>
        split at hnt
        case isTrue h24 =>
          rw [if_pos ⟨by omega, by omega, ho⟩] at hnt
          rw [Option.map_some'] at hnt
          injection hnt with hnt
          subst hnt
          exact ⟨by omega, by omega⟩
        case isFalse h24 =>
          split at hnt
          case isFalse => exact absurd hnt (by simp)
          case isTrue hc2 =>
            injection hnt with hnt
            subst hnt
            exact ⟨by omega, by omega⟩
      case isFalse h60 =>
        split at hnt
        case isFalse => exact absurd hnt (by simp)
        case isTrue hc2 =>
          injection hnt with hnt
          subst hnt
          exact ⟨by omega, by omega⟩
  obtain ⟨hb1, hb2⟩ := hnt2
  rw [if_neg (by omega)]
  exact ⟨hb1, hb2⟩

/-- Same bounds for the `try:` body of the coordinators'
`_calculate_next_update_time`, on the runs where it produces a value. -/
theorem coordCalcNextUpdateTry_some_bounds (i o now t : Nat) (hi : 1 ≤ i) (ho : o ≤ 59)
    (h : coordCalcNextUpdateTry i o now = some t) :
    now < t ∧ t ≤ now + i * usecPerMin := by
  simp only [coordCalcNextUpdateTry, replaceMinSec, replaceHMS, minuteOf, hourOf, hourFloor,
    dayFloor, usecPerDay, usecPerHour, usecPerMin, usecPerSec] at h ⊢
  obtain ⟨P, hP⟩ : ∃ P, now / (60 * 1000000) % 60 / i * i = P := ⟨_, rfl⟩
  have hP1 : P ≤ now / (60 * 1000000) % 60 := hP ▸ Nat.div_mul_le_self _ _
  have hP2 : now / (60 * 1000000) % 60 < P + i := hP ▸ Nat.lt_div_mul_add hi
  rw [hP] at h
  rw [Option.bind_eq_some] at h
  obtain ⟨ist, hist, h⟩ := h
  rw [Option.bind_eq_some] at h
  obtain ⟨nt, hnt, hsome⟩ := h
  injection hsome with hsome
  split at hist
  case isFalse => exact absurd hist (by simp)
  case isTrue hcond =>
  injection hist with hist
  subst hist
  subst hsome
  have hnt2 : now < nt ∧ nt ≤ now + i * (60 * 1000000) := by
    split at hnt
    case isTrue hlt =>
      injection hnt with hnt
      subst hnt
      exact ⟨hlt, by omega⟩
    case isFalse hge =>
      split at hnt
      case isTrue h60 =>
        split at hnt
        case isFalse => exact absurd hnt (by simp)
        case isTrue hc2 =>
          injection hnt with hnt
          subst hnt
          exact ⟨by omega, by omega⟩
      case isFalse h60 =>
        split at hnt
        case isFalse => exact absurd hnt (by simp)
        case isTrue hc2 =>
          injection hnt with hnt
          subst hnt
          exact ⟨by omega, by omega⟩
  obtain ⟨hb1, hb2⟩ := hnt2
  rw [if_neg (by omega)]
  exact ⟨hb1, hb2⟩

/-- C4: for valid inputs (`interval_minutes ≥ 1`, `offset_seconds` in
`[0, 59]`, any `now`) both next-tick implementations return an instant at
least `now`, and whenever the `try:` body produces a value (i.e. outside
the exception-fallback path) that value is the returned instant and is at
most `interval_minutes` minutes after `now`. -/
theorem next_tick_bounds (i o now t tc : Nat) (hi : 1 ≤ i) (ho : o ≤ 59) :
    now ≤ calculate_next_update_time i o now ∧
    now ≤ coord_calculate_next_update_time i o now ∧
    (calcNextUpdateTry i o now = some t →
      calculate_next_update_time i o now = t ∧ t ≤ now + i * usecPerMin) ∧
    (coordCalcNextUpdateTry i o now = some tc →
      coord_calculate_next_update_time i o now = tc ∧ tc ≤ now + i * usecPerMin) := by
  have hcl : min (max 0 o) 59 = o := by
    rw [Nat.max_eq_right (Nat.zero_le o), Nat.min_eq_left ho]
  have hrw : calculate_next_update_time i o now =
      (calcNextUpdateTry i o now).getD (now + i * usecPerMin + o * usecPerSec) := by
    simp only [calculate_next_update_time]
    rw [hcl]
  refine ⟨?_, ?_, ?_, ?_⟩
  · rw [hrw]
    cases hcase : calcNextUpdateTry i o now with
    | none => exact Nat.le_trans (Nat.le_add_right _ _) (Nat.le_add_right _ _)
    | some u =>
        have hb := calcNextUpdateTry_some_bounds i o now u hi ho hcase
        exact Nat.le_of_lt hb.1
  · unfold coord_calculate_next_update_time
    cases hcase : coordCalcNextUpdateTry i o now with
    | none => exact Nat.le_trans (Nat.le_add_right _ _) (Nat.le_add_right _ _)
    | some u =>
        have hb := coordCalcNextUpdateTry_some_bounds i o now u hi ho hcase
        exact Nat.le_of_lt hb.1
  · intro hsome
    have hb := calcNextUpdateTry_some_bounds i o now t hi ho hsome
    refine ⟨?_, hb.2⟩
    rw [hrw, hsome]
    rfl
  · intro hsome
    have hb := coordCalcNextUpdateTry_some_bounds i o now tc hi ho hsome
    refine ⟨?_, hb.2⟩
    unfold coord_calculate_next_update_time
    rw [hsome]
    rfl

/-- The tick 10:15:15, produced by both implementations from 10:07:30 with
a 15-minute interval and 15-second offset. -/
def t101515 : Nat := 1000 * usecPerDay + 10 * usecPerHour + 15 * usecPerMin + 15 * usecPerSec

/-- C4 witness: the bounds at interval 15, offset 15, now 10:07:30, where
both `try:` bodies produce 10:15:15. -/
theorem next_tick_bounds_witness :
    (calcNextUpdateTry 15 15 t100730 = some t101515 ∧
      coordCalcNextUpdateTry 15 15 t100730 = some t101515) ∧
    (t100730 ≤ calculate_next_update_time 15 15 t100730 ∧
      t100730 ≤ coord_calculate_next_update_time 15 15 t100730 ∧
      (calcNextUpdateTry 15 15 t100730 = some t101515 →
        calculate_next_update_time 15 15 t100730 = t101515 ∧
          t101515 ≤ t100730 + 15 * usecPerMin) ∧
      (coordCalcNextUpdateTry 15 15 t100730 = some t101515 →
        coord_calculate_next_update_time 15 15 t100730 = t101515 ∧
          t101515 ≤ t100730 + 15 * usecPerMin)) :=
  ⟨⟨by decide, by decide⟩,
    next_tick_bounds 15 15 t100730 t101515 t101515 (by decide) (by decide)⟩

/-- C5 (amended): `utils.calculate_next_update_time` carries the day
rollover: for every `now` in the last interval of hour 23 at or past the
interval's offset instant, the next tick is the next day at 00:00 and
`offset_seconds` seconds, computed by adding `timedelta(days=1)`, with no
invalid-date error.  (The coordinators' copy diverges here; see
`coord_hour23_rollover_error`.) -/
theorem utils_midnight_rollover (i o now : Nat) (_hi : 1 ≤ i) (ho : o ≤ 59)
    (hhour : hourOf now = 23)
    (hlast : 60 ≤ minuteOf now / i * i + i)
    (hpast : hourFloor now + (minuteOf now / i * i) * usecPerMin + o * usecPerSec ≤ now) :
    calculate_next_update_time i o now = dayFloor now + usecPerDay + o * usecPerSec := by
  have hcl : min (max 0 o) 59 = o := by
    rw [Nat.max_eq_right (Nat.zero_le o), Nat.min_eq_left ho]
  unfold calculate_next_update_time
  rw [hcl]
  simp only [calcNextUpdateTry, replaceMinSec, replaceHMS, minuteOf, hourOf, hourFloor,
    dayFloor, usecPerDay, usecPerHour, usecPerMin, usecPerSec] at hhour hlast hpast ⊢
  obtain ⟨P, hP⟩ : ∃ P, now / (60 * 1000000) % 60 / i * i = P := ⟨_, rfl⟩
  have hP1 : P ≤ now / (60 * 1000000) % 60 := hP ▸ Nat.div_mul_le_self _ _
  rw [hP] at hlast hpast ⊢
  rw [if_pos ⟨by omega, ho⟩]
  rw [Option.some_bind]
  rw [if_neg (by omega)]
  rw [if_pos hlast]
  rw [if_pos (by omega)]
  rw [if_pos ⟨by omega, by omega, ho⟩]
  rw [Option.map_some']
  rw [Option.some_bind]
  rw [if_neg (by omega)]
  rw [Option.getD_some]
  omega

/-- C5 witness: at 23:50:30 with a 15-minute interval and offset 15, the
utils implementation returns the next day at 00:00:15. -/
theorem utils_midnight_rollover_witness :
    calculate_next_update_time 15 15 t235030 =
      dayFloor t235030 + usecPerDay + 15 * usecPerSec :=
  utils_midnight_rollover 15 15 t235030 (by decide) (by decide) (by decide)
    (by decide) (by decide)

/-- The contribution one consumption entry makes inside the cost loop of
`native_value` (sensor.py lines 902-922): matched-hour price, else the
average fallback (0 only in the dead branch where the slot list is empty,
in which the loop adds nothing). -/
def costTerm (slots : List Slot) (e : ConsumptionEntry) : ℚ :=
  match priceByDatetime slots (hourTrunc e.start) with
  | some p => e.kwh * p
  | none => if slots.isEmpty then 0 else e.kwh * avgTotalPrice slots

/-- The cost loop accumulates exactly the sum of the per-entry
contributions. -/
theorem costSum_eq_map_sum (entries : List ConsumptionEntry) (slots : List Slot) :
    costSum entries slots = (entries.map (costTerm slots)).sum := by
  have aux : ∀ (l : List ConsumptionEntry) (a : ℚ),
      l.foldl
        (fun acc e =>
          match priceByDatetime slots (hourTrunc e.start) with
          | some p => acc + e.kwh * p
          | none => if slots.isEmpty then acc else acc + e.kwh * avgTotalPrice slots)
        a = a + (l.map (costTerm slots)).sum := by
    intro l
    induction l with
    | nil => intro a; simp
    | cons e es ih =>
        intro a
        rw [List.foldl_cons, List.map_cons, List.sum_cons, ih]
        have hbody : (match priceByDatetime slots (hourTrunc e.start) with
            | some p => a + e.kwh * p
            | none => if slots.isEmpty then a else a + e.kwh * avgTotalPrice slots) =
            a + costTerm slots e := by
          unfold costTerm
          cases hp : priceByDatetime slots (hourTrunc e.start) with
          | none =>
              simp only []
              split
              case isTrue => ring
              case isFalse => rfl
          | some p => rfl
        rw [hbody]
        ring
  rw [costSum, aux, zero_add]

/-- When no two slots share a normalized hour-start, the
last-insertion-wins dictionary lookup agrees with a first-match search. -/
theorem priceByDatetime_eq_find (slots : List Slot) (h : Nat)
    (hd : slots.Pairwise (fun a b => hourTrunc a.start ≠ hourTrunc b.start)) :
    priceByDatetime slots h =
      (slots.find? (fun s => hourTrunc s.start == h)).map (fun s => s.total_price) := by
  induction slots with
  | nil => rfl
  | cons s rest ih =>
      obtain ⟨hd1, hd2⟩ := List.pairwise_cons.mp hd
      by_cases hs : (hourTrunc s.start == h) = true
      · rw [List.find?_cons_of_pos (p := fun s' => hourTrunc s'.start == h) rest hs]
        unfold priceByDatetime
        rw [List.reverse_cons, List.find?_append]
        have hnone : rest.reverse.find? (fun s' => hourTrunc s'.start == h) = none := by
          rw [List.find?_eq_none]
          intro x hx
          simp only [beq_iff_eq]
          rw [beq_iff_eq] at hs
          intro hxh
          exact hd1 x (List.mem_reverse.mp hx) (by rw [hs, hxh])
        rw [hnone]
        simp [List.find?, hs]
      · rw [List.find?_cons_of_neg (p := fun s' => hourTrunc s'.start == h) rest hs]
        unfold priceByDatetime at ih ⊢
        rw [List.reverse_cons, List.find?_append]
        have hsingle : [s].find? (fun s' => hourTrunc s'.start == h) = none := by
          simp [List.find?, hs]
        rw [hsingle, Option.or_none]
        exact ih hd2

/-- C7: for non-empty consumption and price-slot lists with distinct
hour-starts, the cost sensor's value is the sum over consumption entries of
`kwh` times the `total_price` of the slot whose hour-truncated start equals
the entry's hour-truncated start when one exists (so an entry at 10:30 uses
the 10:00 slot's price), and `kwh` times the arithmetic mean of the day's
`total_price` values otherwise, rounded to 2 decimal places. -/
theorem cost_value_formula (isToday : Bool) (pd : List (String × DictVal))
    (cd : ConsumptionResult) (entries : List ConsumptionEntry) (slots : List Slot)
    (hentries : (if isToday then cd.today else cd.yesterday) = entries)
    (hslots : dictGetSlots pd (if isToday then "today_slots" else "yesterday_slots") = slots)
    (hne : entries ≠ []) (hns : slots ≠ [])
    (hdedup : slots.Pairwise (fun a b => hourTrunc a.start ≠ hourTrunc b.start)) :
    native_value isToday (some pd) (some cd) =
      some (round2 ((entries.map (fun e =>
        match slots.find? (fun s => hourTrunc s.start == hourTrunc e.start) with
        | some s => e.kwh * s.total_price
        | none => e.kwh * avgTotalPrice slots)).sum)) := by
  have hpd : pd.isEmpty = false := by
    cases pd with
    | nil => exact absurd (hslots.symm.trans rfl) hns
    | cons a l => rfl
  simp only [native_value, hpd, Bool.false_eq_true, if_false, hentries, hslots]
  rw [if_neg]
  · congr 1
    congr 1
    rw [costSum_eq_map_sum]
    refine congrArg List.sum (List.map_congr_left ?_)
    intro e _
    unfold costTerm
    rw [priceByDatetime_eq_find slots (hourTrunc e.start) hdedup]
    cases hf : slots.find? (fun s => hourTrunc s.start == hourTrunc e.start) with
    | none =>
        simp only [Option.map_none']
        rw [if_neg (by simpa [List.isEmpty_iff] using hns)]
    | some s => simp only [Option.map_some']
  · rw [not_or]
    constructor
    · simpa [List.isEmpty_iff] using hne
    · simpa [List.isEmpty_iff] using hns

/-- The 10:00 slot priced 0.30 EUR/kWh, for the C7 witness. -/
def slotTen : Slot :=
  { start := 1000 * usecPerDay + 10 * usecPerHour
    end_ := 1000 * usecPerDay + 11 * usecPerHour
    net_price := 0
    taxes_price := 0
    total_price := 30 / 100
    gross_kwh_price := 0
    gross_tax_and_levies := 0 }

/-- A price dictionary whose today bucket is just the 10:00 slot. -/
def pdToday : List (String × DictVal) := [("today_slots", DictVal.slots [slotTen])]

/-- A 2 kWh consumption entry at 10:30, whose hour-truncated start is
10:00. -/
def entryTenThirty : ConsumptionEntry :=
  { start := 1000 * usecPerDay + 10 * usecPerHour + 30 * usecPerMin
    end_ := 1000 * usecPerDay + 11 * usecPerHour + 30 * usecPerMin
    kwh := 2 }

/-- A consumption result holding only the 10:30 entry for today. -/
def cdToday : ConsumptionResult :=
  { yesterday := [], today := [entryTenThirty], last_update := 0 }

/-- C7 witness: the cost formula at the spec's scenario - a 10:30
consumption entry against a price list keyed by the exact hour 10:00. -/
theorem cost_value_formula_witness :
    native_value true (some pdToday) (some cdToday) =
      some (round2 (([entryTenThirty].map (fun e =>
        match [slotTen].find? (fun s => hourTrunc s.start == hourTrunc e.start) with
        | some s => e.kwh * s.total_price
        | none => e.kwh * avgTotalPrice [slotTen])).sum)) :=
  cost_value_formula true pdToday cdToday [entryTenThirty] [slotTen] rfl rfl
    (List.cons_ne_nil _ _) (List.cons_ne_nil _ _) (by simp)

/-- The mean `total_price` of the window of `n` slots starting at index `i`
- the `avg_price` of one loop iteration in `get_cheapest_3h_block` /
`get_cheapest_4h_block`. -/
def blockAvg (n : Nat) (slots : List Slot) (i : Nat) : ℚ :=
  (((slots.drop i).take n).map (fun s => s.total_price)).sum / (n : ℚ)

/-- Proof-side reading of the sliding-minimum fold of `cheapestBlockLoop`,
with the window mean and window start abstracted as functions of the
index. -/
def runMin (f : Nat → ℚ) (g : Nat → Option Nat) (k : Nat) : Option (ℚ × Option Nat) :=
  (List.range k).foldl
    (fun acc i =>
      match acc with
      | none => some (f i, g i)
      | some (minAvg, bestStart) =>
          if f i < minAvg then some (f i, g i) else some (minAvg, bestStart))
    none

theorem cheapestBlockLoop_eq_runMin (n : Nat) (slots : List Slot) :
    cheapestBlockLoop n slots =
      runMin (blockAvg n slots)
        (fun i => ((slots.drop i).take n).head?.map (fun s => s.start))
        (slots.length - (n - 1)) := rfl

/-- The sliding-minimum fold keeps the first index achieving the minimum:
its result is a window index whose value is at most every window's value
and strictly below every earlier window's value. -/
theorem runMin_spec (f : Nat → ℚ) (g : Nat → Option Nat) :
    ∀ k, 0 < k → ∃ i, i < k ∧ runMin f g k = some (f i, g i) ∧
      (∀ j, j < k → f i ≤ f j) ∧ (∀ j, j < i → f i < f j) := by
  intro k
  induction k with
  | zero => intro h; exact absurd h (Nat.lt_irrefl 0)
  | succ k ih =>
      intro _
      by_cases hk : 0 < k
      · obtain ⟨i, hik, hrun, hmin, hstrict⟩ := ih hk
        have hstep : runMin f g (k + 1) =
            (match runMin f g k with
              | none => some (f k, g k)
              | some (minAvg, bestStart) =>
                  if f k < minAvg then some (f k, g k) else some (minAvg, bestStart)) := by
          unfold runMin
          rw [List.range_succ, List.foldl_append, List.foldl_cons, List.foldl_nil]
        rw [hrun] at hstep
        by_cases hlt : f k < f i
        · refine ⟨k, Nat.lt_succ_self k, ?_, ?_, ?_⟩
          · rw [hstep]; simp [hlt]
          · intro j hj
            rcases Nat.lt_succ_iff_lt_or_eq.mp hj with hj | rfl
            · exact le_of_lt (lt_of_lt_of_le hlt (hmin j hj))
            · exact le_refl _
          · intro j hj
            exact lt_of_lt_of_le hlt (hmin j hj)
        · refine ⟨i, Nat.lt_succ_of_lt hik, ?_, ?_, hstrict⟩
          · rw [hstep]; simp [hlt]
          · intro j hj
            rcases Nat.lt_succ_iff_lt_or_eq.mp hj with hj | rfl
            · exact hmin j hj
            · exact le_of_not_lt hlt
      · have hz : k = 0 := by omega
        subst hz
        refine ⟨0, Nat.lt_succ_self 0, rfl, ?_, ?_⟩
        · intro j hj
          have : j = 0 := by omega
          subst this
          exact le_refl _
        · intro j hj
          exact absurd hj (Nat.not_lt_zero j)

theorem head?_take_of_pos {α : Type} (l : List α) (n : Nat) (h : 0 < n) :
    (l.take n).head? = l.head? := by
  cases n with
  | zero => exact absurd h (Nat.lt_irrefl 0)
  | succ n => cases l <;> rfl

/-- Shared argmin characterization for the two cheapest-block functions'
common loop. -/
theorem cheapest_aux (n : Nat) (slots : List Slot) (hn : 0 < n) (h : n ≤ slots.length) :
    ∃ i s, i < slots.length - (n - 1) ∧ slots[i]? = some s ∧
      (match cheapestBlockLoop n slots with
        | none => none
        | some (_, b) => b) = some s.start ∧
      (∀ j, j < slots.length - (n - 1) → blockAvg n slots i ≤ blockAvg n slots j) ∧
      (∀ j, j < i → blockAvg n slots i < blockAvg n slots j) := by
  have hk : 0 < slots.length - (n - 1) := by omega
  obtain ⟨i, hik, hrun, hmin, hstrict⟩ := runMin_spec (blockAvg n slots)
    (fun i => ((slots.drop i).take n).head?.map (fun s => s.start)) _ hk
  have hlt : i < slots.length := by omega
  refine ⟨i, slots[i], hik, List.getElem?_eq_getElem hlt, ?_, hmin, hstrict⟩
  rw [cheapestBlockLoop_eq_runMin, hrun]
  show ((slots.drop i).take n).head?.map (fun s => s.start) = some slots[i].start
  rw [head?_take_of_pos _ _ hn, List.head?_drop, List.getElem?_eq_getElem hlt,
    Option.map_some']

/-- A price slot with only `start` and `total_price` populated, as the
block-scenario inputs need. -/
def sampleSlot (t : Nat) (p : ℚ) : Slot :=
  { start := t, end_ := t + usecPerHour, net_price := 0, taxes_price := 0,
    total_price := p, gross_kwh_price := 0, gross_tax_and_levies := 0 }

/-- The spec's cheapest-block scenario: hourly slots 10:00-15:00 with total
prices 0.30, 0.20, 0.25, 0.10, 0.15, 0.20 EUR/kWh. -/
def scenarioSlots : List Slot :=
  [sampleSlot (1000 * usecPerDay + 10 * usecPerHour) (30 / 100),
   sampleSlot (1000 * usecPerDay + 11 * usecPerHour) (20 / 100),
   sampleSlot (1000 * usecPerDay + 12 * usecPerHour) (25 / 100),
   sampleSlot (1000 * usecPerDay + 13 * usecPerHour) (10 / 100),
   sampleSlot (1000 * usecPerDay + 14 * usecPerHour) (15 / 100),
   sampleSlot (1000 * usecPerDay + 15 * usecPerHour) (20 / 100)]

/-- C9: `get_cheapest_3h_block` / `get_cheapest_4h_block` return `none`
when fewer than 3 (resp. 4) slots are given, and otherwise the `start` of
the earliest window of consecutive slots achieving the minimum mean
`total_price` (the first window whose mean is strictly below every earlier
window's mean and at most every later window's); on the spec's six-slot
scenario the 3-hour result is 13:00. -/
theorem cheapest_block_spec (slots : List Slot) :
    (slots.length < 3 → get_cheapest_3h_block slots = none) ∧
    (3 ≤ slots.length →
      ∃ i s, i < slots.length - 2 ∧ slots[i]? = some s ∧
        get_cheapest_3h_block slots = some s.start ∧
        (∀ j, j < slots.length - 2 → blockAvg 3 slots i ≤ blockAvg 3 slots j) ∧
        (∀ j, j < i → blockAvg 3 slots i < blockAvg 3 slots j)) ∧
    (slots.length < 4 → get_cheapest_4h_block slots = none) ∧
    (4 ≤ slots.length →
      ∃ i s, i < slots.length - 3 ∧ slots[i]? = some s ∧
        get_cheapest_4h_block slots = some s.start ∧
        (∀ j, j < slots.length - 3 → blockAvg 4 slots i ≤ blockAvg 4 slots j) ∧
        (∀ j, j < i → blockAvg 4 slots i < blockAvg 4 slots j)) ∧
    get_cheapest_3h_block scenarioSlots =
      some (1000 * usecPerDay + 13 * usecPerHour) := by
  refine ⟨?_, ?_, ?_, ?_, ?_⟩
  · intro h
    simp only [get_cheapest_3h_block]
    rw [if_pos h]
  · intro h3
    obtain ⟨i, s, hik, hgs, hmatch, hmin, hstrict⟩ := cheapest_aux 3 slots (by omega) h3
    refine ⟨i, s, hik, hgs, ?_, hmin, hstrict⟩
    simp only [get_cheapest_3h_block]
    rw [if_neg (by omega)]
    exact hmatch
  · intro h
    simp only [get_cheapest_4h_block]
    rw [if_pos h]
  · intro h4
    obtain ⟨i, s, hik, hgs, hmatch, hmin, hstrict⟩ := cheapest_aux 4 slots (by omega) h4
    refine ⟨i, s, hik, hgs, ?_, hmin, hstrict⟩
    simp only [get_cheapest_4h_block]
    rw [if_neg (by omega)]
    exact hmatch
  · norm_num [get_cheapest_3h_block, cheapestBlockLoop, scenarioSlots, sampleSlot,
      List.range_succ, List.foldl_append]

end Ostrom
